import Mathlib

/-!
Verification of the miner falling-object grid automaton and related game
rules (procgen2 repository: src/procgen/src/games/miner.cpp and
src/procgen/src/games/bigfish.cpp).

The grid is a row-major list of cell tags addressed by the flattened index
idx = y * width + x; the cell below idx is idx - width.  Machine ints that
can go negative in the C++ (below_idx, push bounds) are modelled as Int.
The agent is modelled as occupying a single grid cell (its continuous
position sits at a cell center, so the two C++ index computations
get_agent_index() and (y - .5) * width + (x - .5) agree and are both
modelled by the field agent_idx).
-/

namespace Procgen

/-- Modelled from the spec: the engine tag for empty space (the engine
constant is declared outside this repository; the spec lists SPACE as a
cell tag distinct from all per-game tags). -/
def SPACE : Nat := 0

/-- Tag constants from miner.cpp. -/
def BOULDER : Nat := 1

def DIAMOND : Nat := 2

def MOVING_BOULDER : Nat := 3

def MOVING_DIAMOND : Nat := 4

def ENEMY : Nat := 5

def EXIT : Nat := 6

def DIRT : Nat := 9

def OOB_WALL : Nat := 10

/-- Reward constants from miner.cpp (COMPLETION_BONUS = 10.0,
DIAMOND_REWARD = 1; both integral, modelled as Int). -/
def COMPLETION_BONUS : Int := 10

def DIAMOND_REWARD : Int := 1

namespace Miner

/-- MinerGame::get_moving_type. -/
def get_moving_type (t : Nat) : Nat :=
  if t = DIAMOND then MOVING_DIAMOND
  else if t = BOULDER then MOVING_BOULDER
  else t

/-- MinerGame::is_moving. -/
def is_moving (t : Nat) : Bool :=
  t = MOVING_BOULDER || t = MOVING_DIAMOND

/-- MinerGame::get_stationary_type. -/
def get_stationary_type (t : Nat) : Nat :=
  if t = MOVING_DIAMOND then DIAMOND
  else if t = MOVING_BOULDER then BOULDER
  else t

/-- MinerGame::is_round. -/
def is_round (t : Nat) : Bool :=
  t = BOULDER || t = MOVING_BOULDER || t = DIAMOND || t = MOVING_DIAMOND

/-- State of the miner game visible to the grid automaton: the grid
(row-major list of tags), board dimensions, the agent cell, the agent's
intended horizontal action and residual horizontal velocity for the tick,
the running diamond tally, and the step/episode flags from step_data. -/
structure MState where
  grid : List Nat
  width : Nat
  height : Nat
  agent_idx : Nat
  action_vx : Int
  agent_vx : Int
  diamonds : Nat
  reward : Int
  done : Bool
  level_complete : Bool
deriving DecidableEq

/-- Cell lookup at a Nat index; out-of-range reads give the
out-of-bounds wall tag (modelled from the spec: the engine returns the
OUT_OF_BOUNDS tag outside the grid). -/
def getCell (s : MState) (c : Nat) : Nat :=
  s.grid.getD c OOB_WALL

/-- Engine get_obj on a possibly negative flattened index (modelled from
the spec: out-of-bounds reads give the out-of-bounds wall tag). -/
def get_obj (s : MState) (i : Int) : Nat :=
  if i < 0 then OOB_WALL else getCell s i.toNat

/-- Engine set_obj on a possibly negative flattened index; out-of-range
writes change nothing (the automaton only ever writes in range). -/
def set_obj (s : MState) (i : Int) (v : Nat) : MState :=
  if i < 0 then s else { s with grid := s.grid.set i.toNat v }

/-- MinerGame::is_free: SPACE and not the agent's cell. -/
def is_free (s : MState) (i : Int) : Bool :=
  get_obj s i = SPACE && (s.agent_idx : Int) ≠ i

/-- The diamond tally performed at each scanned cell of game_step
(diamonds_count++ when the stationary-equivalent tag is DIAMOND). -/
def tally (s : MState) (idx : Nat) : MState :=
  if get_stationary_type (getCell s idx) = DIAMOND then
    { s with diamonds := s.diamonds + 1 }
  else s

/-- The round-object transition of one scanned cell in game_step
(miner.cpp lines 349-367): fall into SPACE below as the moving variant,
crush the agent below when moving, roll left, roll right, or come to
rest as the stationary variant. -/
def moveResolve (s : MState) (idx : Nat) : MState :=
  let obj := getCell s idx
  let below : Int := (idx : Int) - (s.width : Int)
  if get_obj s below = SPACE ∧ ¬((s.agent_idx : Int) = below) then
    set_obj (set_obj s (idx : Int) SPACE) below (get_moving_type obj)
  else if ((s.agent_idx : Int) = below) ∧ is_moving obj = true then
    { s with done := true }
  else if is_round (get_obj s below) = true ∧ 0 < idx % s.width ∧
      is_free s ((idx : Int) - 1) = true ∧ is_free s (below - 1) = true then
    set_obj (set_obj s (idx : Int) SPACE) ((idx : Int) - 1) (get_stationary_type obj)
  else if is_round (get_obj s below) = true ∧
      ((idx % s.width : Nat) : Int) < (s.width : Int) - 1 ∧
      is_free s ((idx : Int) + 1) = true ∧ is_free s (below + 1) = true then
    set_obj (set_obj s (idx : Int) SPACE) ((idx : Int) + 1) (get_stationary_type obj)
  else
    set_obj s (idx : Int) (get_stationary_type obj)

/-- One iteration of the game_step scan loop at index idx: tally the
diamond, then resolve the cell if it holds a round object. -/
def scanCell (s : MState) (idx : Nat) : MState :=
  if is_round (getCell s idx) = true then moveResolve (tally s idx) idx
  else tally s idx

/-- The first n iterations of the game_step scan loop (indices 0..n-1 in
ascending order). -/
def scanUpTo (s : MState) : Nat → MState
  | 0 => s
  | n + 1 => scanCell (scanUpTo s n) n

/-- One full automaton pass of game_step: reset the diamond tally, then
scan every cell of the grid in ascending index order.  The diamonds field
of the result is the diamonds_remaining reported for the tick. -/
def automaton_tick (s : MState) : MState :=
  scanUpTo { s with diamonds := 0 } (s.width * s.height)

/-- MinerGame::handle_push: displace a stationary boulder horizontally
into the free cell beyond it when the agent pushes toward it with no
residual horizontal velocity, within column bounds. -/
def handle_push (s : MState) : MState :=
  let agent_idx := s.agent_idx
  let agentx := agent_idx % s.width
  if s.action_vx = 1 ∧ s.agent_vx = 0 ∧ (agentx : Int) < (s.width : Int) - 2 ∧
      get_obj s ((agent_idx : Int) + 1) = BOULDER ∧
      get_obj s ((agent_idx : Int) + 2) = SPACE then
    { set_obj (set_obj s ((agent_idx : Int) + 1) SPACE) ((agent_idx : Int) + 2) BOULDER with
      agent_idx := agent_idx + 1 }
  else if s.action_vx = -1 ∧ s.agent_vx = 0 ∧ 1 < agentx ∧
      get_obj s ((agent_idx : Int) - 1) = BOULDER ∧
      get_obj s ((agent_idx : Int) - 2) = SPACE then
    { set_obj (set_obj s ((agent_idx : Int) - 1) SPACE) ((agent_idx : Int) - 2) BOULDER with
      agent_idx := agent_idx - 1 }
  else s

/-- The per-step episode data mutated by collision handlers. -/
structure StepData where
  reward : Int
  done : Bool
  level_complete : Bool
deriving DecidableEq

/-- MinerGame::handle_agent_collision: an ENEMY ends the episode; the
EXIT ends it with the completion bonus and the level-complete flag only
when no diamonds remain. -/
def handle_agent_collision (diamonds_remaining : Nat) (obj_type : Nat) (sd : StepData) : StepData :=
  if obj_type = ENEMY then { sd with done := true }
  else if obj_type = EXIT then
    if diamonds_remaining = 0 then
      { sd with reward := sd.reward + COMPLETION_BONUS, level_complete := true, done := true }
    else sd
  else sd

/-- The exit-candidate filter of game_reset: among the listed dirt cells,
keep those whose directly-above cell currently reads DIRT or the
out-of-bounds tag (reads above the top row give the out-of-bounds tag). -/
def exit_candidates (g : List Nat) (w : Nat) (dirt_cells : List Nat) : List Nat :=
  dirt_cells.filter fun c =>
    let above := g.getD (c + w) OOB_WALL
    above == DIRT || above == OOB_WALL

/-- The exit-selection step of game_reset: fail (the fassert) when no
candidate exists, otherwise index the candidate list by the engine's
uniform draw (modelled from the spec: rand_gen.randn(n) is an engine
uniform draw in [0, n), modelled as r % n for an arbitrary r). -/
def choose_exit (g : List Nat) (w : Nat) (dirt_cells : List Nat) (r : Nat) : Option Nat :=
  let cands := exit_candidates g w dirt_cells
  if cands.length = 0 then none
  else some (cands.getD (r % cands.length) 0)

/-- Count of round-object cells in a grid. -/
def count_round (g : List Nat) : Nat :=
  g.countP fun t => is_round t

/-- Boolean test for a stationary-equivalent diamond tag. -/
def diamondB (t : Nat) : Bool :=
  get_stationary_type t == DIAMOND

/-- Count of cells whose stationary-equivalent tag is diamond. -/
def count_diamond (g : List Nat) : Nat :=
  g.countP diamondB

/-- Count of stationary-equivalent diamond cells at indices ≥ n. -/
def count_from (p : Nat → Bool) (g : List Nat) (n : Nat) : Nat :=
  (g.drop n).countP p

end Miner

namespace BigFish

/-- Tag constant from bigfish.cpp. -/
def FISH : Nat := 2

/-- Reward constants from bigfish.cpp (declared as int, initialised from
the float literals 10.0f and 1.0f, hence the integral values). -/
def BF_COMPLETION_BONUS : Int := 10

def POSITIVE_REWARD : Int := 1

/-- State of the bigfish game relevant to agent-fish collisions: the
agent's radii and x position (continuous quantities, modelled as ℚ), the
per-level growth increment, the fish-eaten counter, and the step data. -/
structure FishState where
  agent_rx : ℚ
  agent_ry : ℚ
  agent_x : ℚ
  r_inc : ℚ
  fish_eaten : Nat
  reward : Int
  done : Bool
deriving DecidableEq

/-- BigFish::handle_agent_collision on a FISH entity with radius obj_rx
and x position obj_x: a strictly larger fish strictly to the right eats
the player (episode ends); otherwise the player eats the fish (reward,
erase flag, growth, counter).  The returned Bool is the fish entity's
will_erase flag. -/
def bf_handle_agent_collision (s : FishState) (obj_type : Nat) (obj_rx obj_x : ℚ) :
    FishState × Bool :=
  if obj_type = FISH then
    if obj_rx > s.agent_rx ∧ obj_x > s.agent_x then
      ({ s with done := true }, false)
    else
      ({ s with reward := s.reward + POSITIVE_REWARD,
                agent_rx := s.agent_rx + s.r_inc,
                agent_ry := s.agent_ry + s.r_inc,
                fish_eaten := s.fish_eaten + 1 }, true)
  else (s, false)

end BigFish

namespace Miner

/-- Concrete 3-by-3 state for the right-roll double-processing scenario:
bottom row dirt, a boulder resting at cell 4, a diamond on top of it at
cell 7, the agent at cell 6 (blocking the left roll). -/
def cexState : MState :=
  { grid := [DIRT, DIRT, DIRT, SPACE, BOULDER, SPACE, SPACE, DIAMOND, SPACE]
    width := 3, height := 3, agent_idx := 6
    action_vx := 0, agent_vx := 0, diamonds := 0, reward := 0
    done := false, level_complete := false }

/-- Concrete 3-by-3 state for the single-falling-boulder scenario of the
spec: empty grid, one stationary boulder at (1,2) = cell 7, agent at
cell 0. -/
def fallState : MState :=
  { grid := [SPACE, SPACE, SPACE, SPACE, SPACE, SPACE, SPACE, BOULDER, SPACE]
    width := 3, height := 3, agent_idx := 0
    action_vx := 0, agent_vx := 0, diamonds := 0, reward := 0
    done := false, level_complete := false }

/-- Concrete 3-by-3 state with a moving boulder directly above the agent
(agent at cell 1, moving boulder at cell 4). -/
def crushState : MState :=
  { grid := [SPACE, SPACE, SPACE, SPACE, MOVING_BOULDER, SPACE, SPACE, SPACE, SPACE]
    width := 3, height := 3, agent_idx := 1
    action_vx := 0, agent_vx := 0, diamonds := 0, reward := 0
    done := false, level_complete := false }

/-- Concrete 1-by-4 state for a right push: agent at cell 0, boulder at
cell 1, space at cell 2. -/
def pushState : MState :=
  { grid := [SPACE, BOULDER, SPACE, DIRT]
    width := 4, height := 1, agent_idx := 0
    action_vx := 1, agent_vx := 0, diamonds := 0, reward := 0
    done := false, level_complete := false }

/-- Fresh step data at the start of a step. -/
def sd0 : StepData :=
  { reward := 0, done := false, level_complete := false }

end Miner

namespace BigFish

/-- Concrete bigfish state: a medium-size player at x = 0. -/
def bfState : FishState :=
  { agent_rx := 1, agent_ry := 1, agent_x := 0, r_inc := 1 / 20
    fish_eaten := 0, reward := 0, done := false }

end BigFish

namespace Miner

theorem listGetD_set_ne (l : List Nat) (i c v d : Nat) (h : i ≠ c) :
    (l.set i v).getD c d = l.getD c d := by
  rw [List.getD_eq_getElem?_getD, List.getElem?_set_ne h, ← List.getD_eq_getElem?_getD]

theorem listGetD_set_self (l : List Nat) (c v d : Nat) (h : c < l.length) :
    (l.set c v).getD c d = v := by
  have hc : c < (l.set c v).length := by simpa using h
  rw [List.getD_eq_getElem?_getD, List.getElem?_eq_getElem hc]
  simp [List.getElem_set]

theorem countP_set_add (p : Nat → Bool) (l : List Nat) (i v : Nat) (h : i < l.length) :
    (l.set i v).countP p + (if p (l.getD i OOB_WALL) then 1 else 0) =
      l.countP p + (if p v then 1 else 0) := by
  have hget : l.getD i OOB_WALL = l[i] := List.getD_eq_getElem l OOB_WALL h
  have hle : (if p l[i] = true then 1 else 0) ≤ l.countP p := by
    by_cases hp : p l[i] = true
    · simpa [hp] using List.countP_pos_iff.mpr ⟨l[i], List.getElem_mem h, hp⟩
    · simp [hp]
  rw [List.countP_set p l i v h, hget]
  omega

theorem moving_eq_of_ne (t : Nat) (h1 : t ≠ DIAMOND) (h2 : t ≠ BOULDER) :
    get_moving_type t = t := by
  unfold get_moving_type
  rw [if_neg h1, if_neg h2]

theorem stat_eq_of_ne (t : Nat) (h1 : t ≠ MOVING_DIAMOND) (h2 : t ≠ MOVING_BOULDER) :
    get_stationary_type t = t := by
  unfold get_stationary_type
  rw [if_neg h1, if_neg h2]

theorem stat_of_moving (t : Nat) :
    get_stationary_type (get_moving_type t) = get_stationary_type t := by
  by_cases h1 : t = DIAMOND
  · subst h1; decide
  by_cases h2 : t = BOULDER
  · subst h2; decide
  rw [moving_eq_of_ne t h1 h2]

theorem stat_of_stat (t : Nat) :
    get_stationary_type (get_stationary_type t) = get_stationary_type t := by
  by_cases h1 : t = MOVING_DIAMOND
  · subst h1; decide
  by_cases h2 : t = MOVING_BOULDER
  · subst h2; decide
  simp only [stat_eq_of_ne t h1 h2]

theorem is_round_of_moving (t : Nat) : is_round (get_moving_type t) = is_round t := by
  by_cases h1 : t = DIAMOND
  · subst h1; decide
  by_cases h2 : t = BOULDER
  · subst h2; decide
  rw [moving_eq_of_ne t h1 h2]

theorem is_round_of_stat (t : Nat) : is_round (get_stationary_type t) = is_round t := by
  by_cases h1 : t = MOVING_DIAMOND
  · subst h1; decide
  by_cases h2 : t = MOVING_BOULDER
  · subst h2; decide
  rw [stat_eq_of_ne t h1 h2]

theorem round_ne_space {t : Nat} (h : is_round t = true) : t ≠ SPACE := by
  intro h0
  subst h0
  exact absurd h (by decide)

theorem round_ne_oob {t : Nat} (h : is_round t = true) : t ≠ OOB_WALL := by
  intro h0
  subst h0
  exact absurd h (by decide)

theorem moving_ne_space {t : Nat} (h : is_round t = true) :
    get_moving_type t ≠ SPACE := round_ne_space (by rw [is_round_of_moving]; exact h)

theorem diamondB_space : diamondB SPACE = false := by decide

theorem diamondB_of_moving (t : Nat) : diamondB (get_moving_type t) = diamondB t := by
  unfold diamondB
  rw [stat_of_moving]

theorem diamondB_of_stat (t : Nat) : diamondB (get_stationary_type t) = diamondB t := by
  unfold diamondB
  rw [stat_of_stat]

@[simp]
theorem set_obj_width (s : MState) (i : Int) (v : Nat) : (set_obj s i v).width = s.width := by
  unfold set_obj; split <;> rfl

@[simp]
theorem set_obj_height (s : MState) (i : Int) (v : Nat) : (set_obj s i v).height = s.height := by
  unfold set_obj; split <;> rfl

@[simp]
theorem set_obj_agent (s : MState) (i : Int) (v : Nat) :
    (set_obj s i v).agent_idx = s.agent_idx := by
  unfold set_obj; split <;> rfl

@[simp]
theorem set_obj_diamonds (s : MState) (i : Int) (v : Nat) :
    (set_obj s i v).diamonds = s.diamonds := by
  unfold set_obj; split <;> rfl

@[simp]
theorem set_obj_reward (s : MState) (i : Int) (v : Nat) :
    (set_obj s i v).reward = s.reward := by
  unfold set_obj; split <;> rfl

@[simp]
theorem set_obj_done (s : MState) (i : Int) (v : Nat) : (set_obj s i v).done = s.done := by
  unfold set_obj; split <;> rfl

@[simp]
theorem set_obj_level (s : MState) (i : Int) (v : Nat) :
    (set_obj s i v).level_complete = s.level_complete := by
  unfold set_obj; split <;> rfl

@[simp]
theorem set_obj_length (s : MState) (i : Int) (v : Nat) :
    (set_obj s i v).grid.length = s.grid.length := by
  unfold set_obj; split <;> simp

@[simp]
theorem tally_grid (s : MState) (idx : Nat) : (tally s idx).grid = s.grid := by
  unfold tally; split <;> rfl

@[simp]
theorem tally_width (s : MState) (idx : Nat) : (tally s idx).width = s.width := by
  unfold tally; split <;> rfl

@[simp]
theorem tally_agent (s : MState) (idx : Nat) : (tally s idx).agent_idx = s.agent_idx := by
  unfold tally; split <;> rfl

@[simp]
theorem tally_reward (s : MState) (idx : Nat) : (tally s idx).reward = s.reward := by
  unfold tally; split <;> rfl

@[simp]
theorem tally_done (s : MState) (idx : Nat) : (tally s idx).done = s.done := by
  unfold tally; split <;> rfl

@[simp]
theorem tally_level (s : MState) (idx : Nat) :
    (tally s idx).level_complete = s.level_complete := by
  unfold tally; split <;> rfl

@[simp]
theorem getCell_tally (s : MState) (idx c : Nat) : getCell (tally s idx) c = getCell s c := by
  unfold getCell
  rw [tally_grid]

@[simp]
theorem get_obj_tally (s : MState) (idx : Nat) (i : Int) :
    get_obj (tally s idx) i = get_obj s i := by
  unfold get_obj
  split <;> simp

@[simp]
theorem is_free_tally (s : MState) (idx : Nat) (i : Int) :
    is_free (tally s idx) i = is_free s i := by
  unfold is_free
  simp

theorem moveResolve_width (s : MState) (idx : Nat) : (moveResolve s idx).width = s.width := by
  unfold moveResolve; dsimp only; split_ifs <;> simp

theorem moveResolve_agent (s : MState) (idx : Nat) :
    (moveResolve s idx).agent_idx = s.agent_idx := by
  unfold moveResolve; dsimp only; split_ifs <;> simp

theorem moveResolve_diamonds (s : MState) (idx : Nat) :
    (moveResolve s idx).diamonds = s.diamonds := by
  unfold moveResolve; dsimp only; split_ifs <;> simp

theorem moveResolve_reward (s : MState) (idx : Nat) :
    (moveResolve s idx).reward = s.reward := by
  unfold moveResolve; dsimp only; split_ifs <;> simp

theorem moveResolve_level (s : MState) (idx : Nat) :
    (moveResolve s idx).level_complete = s.level_complete := by
  unfold moveResolve; dsimp only; split_ifs <;> simp

theorem moveResolve_length (s : MState) (idx : Nat) :
    (moveResolve s idx).grid.length = s.grid.length := by
  unfold moveResolve; dsimp only; split_ifs <;> simp

theorem moveResolve_done_mono (s : MState) (idx : Nat) (h : s.done = true) :
    (moveResolve s idx).done = true := by
  unfold moveResolve; dsimp only; split_ifs <;> simp [h]

theorem scanCell_width (s : MState) (idx : Nat) : (scanCell s idx).width = s.width := by
  unfold scanCell
  split <;> simp [moveResolve_width]

theorem scanCell_agent (s : MState) (idx : Nat) :
    (scanCell s idx).agent_idx = s.agent_idx := by
  unfold scanCell
  split <;> simp [moveResolve_agent]

theorem scanCell_reward (s : MState) (idx : Nat) : (scanCell s idx).reward = s.reward := by
  unfold scanCell
  split <;> simp [moveResolve_reward]

theorem scanCell_level (s : MState) (idx : Nat) :
    (scanCell s idx).level_complete = s.level_complete := by
  unfold scanCell
  split <;> simp [moveResolve_level]

theorem scanCell_length (s : MState) (idx : Nat) :
    (scanCell s idx).grid.length = s.grid.length := by
  unfold scanCell
  split <;> simp [moveResolve_length]

theorem scanCell_done_mono (s : MState) (idx : Nat) (h : s.done = true) :
    (scanCell s idx).done = true := by
  unfold scanCell
  split
  · exact moveResolve_done_mono _ _ (by simp [h])
  · simp [h]

theorem scanUpTo_width (s : MState) (n : Nat) : (scanUpTo s n).width = s.width := by
  induction n with
  | zero => rfl
  | succ n ih => rw [scanUpTo, scanCell_width, ih]

theorem scanUpTo_agent (s : MState) (n : Nat) : (scanUpTo s n).agent_idx = s.agent_idx := by
  induction n with
  | zero => rfl
  | succ n ih => rw [scanUpTo, scanCell_agent, ih]

theorem scanUpTo_reward (s : MState) (n : Nat) : (scanUpTo s n).reward = s.reward := by
  induction n with
  | zero => rfl
  | succ n ih => rw [scanUpTo, scanCell_reward, ih]

theorem scanUpTo_length (s : MState) (n : Nat) :
    (scanUpTo s n).grid.length = s.grid.length := by
  induction n with
  | zero => rfl
  | succ n ih => rw [scanUpTo, scanCell_length, ih]

theorem scanUpTo_done_mono (s : MState) {n m : Nat} (h : n ≤ m)
    (hd : (scanUpTo s n).done = true) : (scanUpTo s m).done = true := by
  induction m with
  | zero => simpa [Nat.le_zero.mp h] using hd
  | succ m ih =>
    rcases Nat.lt_or_ge n (m + 1) with hlt | hge
    · exact scanCell_done_mono _ _ (ih (Nat.lt_succ_iff.mp hlt))
    · have : n = m + 1 := Nat.le_antisymm h hge
      subst this
      exact hd

theorem getCell_set_obj_ne (s : MState) (i : Int) (v : Nat) (c : Nat) (h : i ≠ (c : Int)) :
    getCell (set_obj s i v) c = getCell s c := by
  unfold set_obj
  split_ifs with h0
  · rfl
  · unfold getCell
    exact listGetD_set_ne _ _ _ _ _ (by omega)

theorem getCell_set_obj_self (s : MState) (i : Int) (v : Nat) (h0 : 0 ≤ i)
    (h : i.toNat < s.grid.length) : getCell (set_obj s i v) i.toNat = v := by
  unfold set_obj
  rw [if_neg (by omega)]
  unfold getCell
  exact listGetD_set_self _ _ _ _ h

theorem get_obj_natCast (s : MState) (n : Nat) : get_obj s (n : Int) = getCell s n := by
  unfold get_obj
  rw [if_neg (by omega)]
  simp

theorem get_obj_nonneg (s : MState) (i : Int) (h : 0 ≤ i) :
    get_obj s i = getCell s i.toNat := by
  unfold get_obj
  rw [if_neg (by omega)]

theorem getCell_lt_length {s : MState} {c : Nat} (h : getCell s c ≠ OOB_WALL) :
    c < s.grid.length := by
  unfold getCell at h
  by_contra hc
  push_neg at hc
  exact h (List.getD_eq_default _ _ hc)

theorem space_lt_length {s : MState} {c : Nat} (h : getCell s c = SPACE) :
    c < s.grid.length :=
  getCell_lt_length (by rw [h]; decide)

theorem round_lt_length {s : MState} {c : Nat} (h : is_round (getCell s c) = true) :
    c < s.grid.length :=
  getCell_lt_length (fun h0 => round_ne_oob h h0)

theorem get_obj_space_bounds {s : MState} {i : Int} (h : get_obj s i = SPACE) :
    0 ≤ i ∧ i.toNat < s.grid.length ∧ getCell s i.toNat = SPACE := by
  unfold get_obj at h
  split_ifs at h with h0
  · exact absurd h (by decide)
  · exact ⟨by omega, space_lt_length h, h⟩

theorem is_free_space {s : MState} {i : Int} (h : is_free s i = true) :
    get_obj s i = SPACE := by
  unfold is_free at h
  exact of_decide_eq_true (Bool.and_elim_left h)

theorem is_free_agent {s : MState} {i : Int} (h : is_free s i = true) :
    (s.agent_idx : Int) ≠ i := by
  unfold is_free at h
  exact of_decide_eq_true (Bool.and_elim_right h)

theorem set_obj_grid (s : MState) (i : Int) (v : Nat) (h : 0 ≤ i) :
    (set_obj s i v).grid = s.grid.set i.toNat v := by
  unfold set_obj
  rw [if_neg (by omega)]

theorem scanCell_oob (s : MState) (idx : Nat) (h : s.grid.length ≤ idx) :
    scanCell s idx = s := by
  have hc : getCell s idx = OOB_WALL := List.getD_eq_default _ _ h
  unfold scanCell
  rw [if_neg (by rw [hc]; decide)]
  unfold tally
  rw [if_neg (by rw [hc]; decide)]

theorem countP_one_set (p : Nat → Bool) (g : List Nat) (i v : Nat) (hi : i < g.length)
    (hv : p v = p (g.getD i OOB_WALL)) : (g.set i v).countP p = g.countP p := by
  have e := countP_set_add p g i v hi
  rcases hpo : p (g.getD i OOB_WALL) with _ | _ <;> simp [hpo, hv] at e ⊢ <;> omega

theorem countP_two_set (p : Nat → Bool) (g : List Nat) (i b v : Nat) (hi : i < g.length)
    (hbne : b ≠ i) (hbs : g.getD b OOB_WALL = SPACE) (hb : b < g.length)
    (hps : p SPACE = false) (hv : p v = p (g.getD i OOB_WALL)) :
    ((g.set i SPACE).set b v).countP p = g.countP p := by
  have e1 := countP_set_add p g i SPACE hi
  have e2 := countP_set_add p (g.set i SPACE) b v (by simpa using hb)
  have hb2 : (g.set i SPACE).getD b OOB_WALL = SPACE := by
    rw [listGetD_set_ne _ _ _ _ _ (fun h => hbne h.symm)]
    exact hbs
  rw [hb2] at e2
  rcases hpo : p (g.getD i OOB_WALL) with _ | _ <;>
    simp [hpo, hps, hv] at e1 e2 ⊢ <;> omega

theorem getCell_crush (s : MState) (c : Nat) :
    getCell { s with done := true } c = getCell s c := rfl

theorem scanCell_preserves_nonspace (s : MState) (idx c : Nat) (hcj : c ≠ idx)
    (hc : getCell s c ≠ SPACE) : getCell (scanCell s idx) c = getCell s c := by
  have hidxc : (idx : Int) ≠ (c : Int) := by omega
  unfold scanCell
  split
  next h0 =>
    unfold moveResolve
    dsimp only
    simp only [tally_width, tally_agent, tally_grid, getCell_tally, get_obj_tally,
      is_free_tally]
    split_ifs with h1 h2 h3 h4
    · -- fall: writes at idx and at the SPACE cell below
      rcases get_obj_space_bounds h1.1 with ⟨hb0, hblen, hbspace⟩
      have hbc : ((idx : Int) - (s.width : Int)) ≠ (c : Int) := by
        intro he
        have hce : ((idx : Int) - (s.width : Int)).toNat = c := by omega
        rw [hce] at hbspace
        exact hc hbspace
      rw [getCell_set_obj_ne _ _ _ _ hbc, getCell_set_obj_ne _ _ _ _ hidxc, getCell_tally]
    · rfl
    · -- roll left: writes at idx and at the free cell to the left
      rcases get_obj_space_bounds (is_free_space h3.2.2.1) with ⟨hl0, hllen, hlspace⟩
      have hlc : ((idx : Int) - 1) ≠ (c : Int) := by
        intro he
        have hce : ((idx : Int) - 1).toNat = c := by omega
        rw [hce] at hlspace
        exact hc hlspace
      rw [getCell_set_obj_ne _ _ _ _ hlc, getCell_set_obj_ne _ _ _ _ hidxc, getCell_tally]
    · -- roll right: writes at idx and at the free cell to the right
      rcases get_obj_space_bounds (is_free_space h4.2.2.1) with ⟨hr0, hrlen, hrspace⟩
      have hrc : ((idx : Int) + 1) ≠ (c : Int) := by
        intro he
        have hce : ((idx : Int) + 1).toNat = c := by omega
        rw [hce] at hrspace
        exact hc hrspace
      rw [getCell_set_obj_ne _ _ _ _ hrc, getCell_set_obj_ne _ _ _ _ hidxc, getCell_tally]
    · rw [getCell_set_obj_ne _ _ _ _ hidxc, getCell_tally]
  next => simp

theorem scanCell_countP (p : Nat → Bool) (hps : p SPACE = false)
    (hpm : ∀ t, p (get_moving_type t) = p t)
    (hpst : ∀ t, p (get_stationary_type t) = p t) (s : MState) (idx : Nat) :
    (scanCell s idx).grid.countP p = s.grid.countP p := by
  by_cases hlen : s.grid.length ≤ idx
  · rw [scanCell_oob s idx hlen]
  push_neg at hlen
  unfold scanCell
  split
  next h0 =>
    have hobj : getCell s idx ≠ SPACE := round_ne_space h0
    unfold moveResolve
    dsimp only
    simp only [tally_width, tally_agent, tally_grid, getCell_tally, get_obj_tally,
      is_free_tally]
    have hidxnat : ((idx : Int)).toNat = idx := by omega
    split_ifs with h1 h2 h3 h4
    · -- fall
      rcases get_obj_space_bounds h1.1 with ⟨hb0, hblen, hbspace⟩
      have hbne : ((idx : Int) - (s.width : Int)).toNat ≠ idx := by
        intro he
        rw [← he] at hobj
        exact hobj hbspace
      rw [set_obj_grid _ _ _ hb0, set_obj_grid _ _ _ (by omega), tally_grid, hidxnat]
      simp only [getCell]
      rw [countP_two_set p s.grid idx _ _ hlen hbne hbspace hblen hps (hpm _)]
    · simp
    · -- roll left
      rcases get_obj_space_bounds (is_free_space h3.2.2.1) with ⟨hl0, hllen, hlspace⟩
      have hlne : ((idx : Int) - 1).toNat ≠ idx := by
        intro he
        rw [← he] at hobj
        exact hobj hlspace
      rw [set_obj_grid _ _ _ hl0, set_obj_grid _ _ _ (by omega), tally_grid, hidxnat]
      simp only [getCell]
      rw [countP_two_set p s.grid idx _ _ hlen hlne hlspace hllen hps (hpst _)]
    · -- roll right
      rcases get_obj_space_bounds (is_free_space h4.2.2.1) with ⟨hr0, hrlen, hrspace⟩
      have hrne : ((idx : Int) + 1).toNat ≠ idx := by
        intro he
        rw [← he] at hobj
        exact hobj hrspace
      rw [set_obj_grid _ _ _ hr0, set_obj_grid _ _ _ (by omega), tally_grid, hidxnat]
      simp only [getCell]
      rw [countP_two_set p s.grid idx _ _ hlen hrne hrspace hrlen hps (hpst _)]
    · rw [set_obj_grid _ _ _ (by omega), tally_grid, hidxnat]
      simp only [getCell]
      rw [countP_one_set p s.grid idx _ hlen (hpst _)]
  next => simp

theorem scanUpTo_countP (p : Nat → Bool) (hps : p SPACE = false)
    (hpm : ∀ t, p (get_moving_type t) = p t)
    (hpst : ∀ t, p (get_stationary_type t) = p t) (s : MState) (n : Nat) :
    (scanUpTo s n).grid.countP p = s.grid.countP p := by
  induction n with
  | zero => rfl
  | succ n ih => rw [scanUpTo, scanCell_countP p hps hpm hpst, ih]

theorem scanUpTo_preserve (s : MState) {c n m : Nat} (hnm : n ≤ m) (hcn : c < n)
    (hcs : getCell (scanUpTo s n) c ≠ SPACE) :
    getCell (scanUpTo s m) c = getCell (scanUpTo s n) c := by
  induction m with
  | zero =>
    have h0 : n = 0 := by omega
    subst h0; rfl
  | succ m ih =>
    rcases Nat.lt_or_ge n (m + 1) with hlt | hge
    · have hnm2 : n ≤ m := by omega
      have e := ih hnm2
      rw [scanUpTo, scanCell_preserves_nonspace _ m c (by omega) (by rw [e]; exact hcs)]
      exact e
    · have h1 : n = m + 1 := by omega
      subst h1; rfl

theorem count_from_zero (p : Nat → Bool) (g : List Nat) : count_from p g 0 = g.countP p := by
  unfold count_from
  rw [List.drop_zero]

theorem count_from_ge (p : Nat → Bool) (g : List Nat) (n : Nat) (h : g.length ≤ n) :
    count_from p g n = 0 := by
  unfold count_from
  rw [List.drop_eq_nil_of_le h]
  rfl

theorem count_from_succ (p : Nat → Bool) (g : List Nat) (n : Nat) (h : n < g.length) :
    count_from p g n = (if p (g.getD n OOB_WALL) then 1 else 0) + count_from p g (n + 1) := by
  unfold count_from
  rw [List.drop_eq_getElem_cons h, List.countP_cons, List.getD_eq_getElem g OOB_WALL h]
  omega

theorem count_from_set_lt (p : Nat → Bool) (g : List Nat) (i v n : Nat) (h : i < n) :
    count_from p (g.set i v) n = count_from p g n := by
  unfold count_from
  rw [List.drop_set, if_pos h]

theorem count_from_set_mono (p : Nat → Bool) (g : List Nat) (n i v : Nat) (hn : n ≤ i)
    (hi : i < g.length) (hold : p (g.getD i OOB_WALL) = false) :
    count_from p g n ≤ count_from p (g.set i v) n := by
  obtain ⟨k, rfl⟩ := Nat.exists_eq_add_of_le hn
  unfold count_from
  rw [List.drop_set, if_neg (by omega), Nat.add_sub_cancel_left]
  have hk : k < (g.drop n).length := by
    rw [List.length_drop]
    omega
  have e := countP_set_add p (g.drop n) k v hk
  have hg : (g.drop n).getD k OOB_WALL = g.getD (n + k) OOB_WALL := by
    rw [List.getD_eq_getElem _ _ hk, List.getElem_drop, List.getD_eq_getElem g _ hi]
  rw [hg, hold] at e
  rcases hv : p v with _ | _ <;> simp [hv] at e <;> omega

theorem tally_diamonds (s : MState) (idx : Nat) :
    (tally s idx).diamonds = s.diamonds + (if diamondB (getCell s idx) then 1 else 0) := by
  by_cases h : get_stationary_type (getCell s idx) = DIAMOND <;>
    simp [tally, diamondB, h]

theorem scanCell_diamonds (s : MState) (idx : Nat) :
    (scanCell s idx).diamonds = s.diamonds + (if diamondB (getCell s idx) then 1 else 0) := by
  unfold scanCell
  split
  · rw [moveResolve_diamonds, tally_diamonds]
  · rw [tally_diamonds]

theorem scanCell_count_from_mono (s : MState) (n : Nat) :
    count_from diamondB s.grid (n + 1) ≤
      count_from diamondB (scanCell s n).grid (n + 1) := by
  unfold scanCell
  split
  next h0 =>
    unfold moveResolve
    dsimp only
    simp only [tally_width, tally_agent, tally_grid, getCell_tally, get_obj_tally,
      is_free_tally]
    split_ifs with h1 h2 h3 h4
    · -- fall: both writes land at indices < n + 1
      rcases get_obj_space_bounds h1.1 with ⟨hb0, hblen, hbspace⟩
      rw [set_obj_grid _ _ _ hb0, set_obj_grid _ _ _ (by omega), tally_grid]
      rw [count_from_set_lt _ _ _ _ _ (by omega), count_from_set_lt _ _ _ _ _ (by omega)]
    · simp
    · -- roll left: both writes land at indices < n + 1
      rcases get_obj_space_bounds (is_free_space h3.2.2.1) with ⟨hl0, hllen, hlspace⟩
      rw [set_obj_grid _ _ _ hl0, set_obj_grid _ _ _ (by omega), tally_grid]
      rw [count_from_set_lt _ _ _ _ _ (by omega), count_from_set_lt _ _ _ _ _ (by omega)]
    · -- roll right: the forward write can only add a diamond at n + 1
      rcases get_obj_space_bounds (is_free_space h4.2.2.1) with ⟨hr0, hrlen, hrspace⟩
      rw [set_obj_grid _ _ _ hr0, set_obj_grid _ _ _ (by omega), tally_grid]
      have hn0 : ((n : Int)).toNat = n := by omega
      have hidx1 : ((n : Int) + 1).toNat = n + 1 := by omega
      rw [hn0, hidx1]
      have step1 : count_from diamondB (s.grid.set n SPACE) (n + 1) =
          count_from diamondB s.grid (n + 1) :=
        count_from_set_lt _ _ _ _ _ (by omega)
      have hrlen2 : n + 1 < (s.grid.set n SPACE).length := by
        rw [hidx1] at hrlen
        simpa using hrlen
      have hspace2 : (s.grid.set n SPACE).getD (n + 1) OOB_WALL = SPACE := by
        rw [listGetD_set_ne _ _ _ _ _ (by omega)]
        rw [hidx1] at hrspace
        exact hrspace
      have hmono := count_from_set_mono diamondB (s.grid.set n SPACE) (n + 1) (n + 1)
        (get_stationary_type (getCell s n)) (le_refl _) hrlen2
        (by rw [hspace2]; exact diamondB_space)
      rw [← step1]
      exact hmono
    · -- rest: the write lands at n < n + 1
      rw [set_obj_grid _ _ _ (by omega), tally_grid]
      rw [count_from_set_lt _ _ _ _ _ (by omega)]
  next => simp

theorem scanCell_diamond_step (s : MState) (n : Nat) :
    s.diamonds + count_from diamondB s.grid n ≤
      (scanCell s n).diamonds + count_from diamondB (scanCell s n).grid (n + 1) := by
  by_cases hlen : s.grid.length ≤ n
  · rw [scanCell_oob s n hlen, count_from_ge _ _ _ hlen, count_from_ge _ _ _ (by omega)]
  push_neg at hlen
  rw [scanCell_diamonds, count_from_succ diamondB s.grid n hlen]
  have key := scanCell_count_from_mono s n
  have hcg : getCell s n = s.grid.getD n OOB_WALL := rfl
  rw [← hcg]
  generalize (if diamondB (getCell s n) then 1 else 0) = a
  omega

theorem scanUpTo_diamond_inv (s : MState) (m : Nat) :
    s.diamonds + count_from diamondB s.grid 0 ≤
      (scanUpTo s m).diamonds + count_from diamondB (scanUpTo s m).grid m := by
  induction m with
  | zero => exact le_refl _
  | succ m ih => exact le_trans ih (scanCell_diamond_step (scanUpTo s m) m)

/-- C5: one full automaton scan of game_step conserves the total number of
grid cells holding round objects (boulders plus diamonds, moving and
stationary variants counted together); the scan never creates or destroys
a round object. -/
theorem round_object_count_conserved (s : MState) :
    count_round (automaton_tick s).grid = count_round s.grid := by
  unfold automaton_tick count_round
  rw [scanUpTo_countP _ (by decide) is_round_of_moving is_round_of_stat]

/-- C1 counterexample: on a concrete 3-by-3 grid where a diamond rolls
right during the scan, the reported remaining-diamond count (2) differs
from the number of cells whose stationary-equivalent tag is diamond after
the scan (1): the rolled diamond is tallied again at its new cell. -/
theorem diamond_count_mismatch_cex :
    (automaton_tick cexState).diamonds ≠ count_diamond (automaton_tick cexState).grid := by
  decide

/-- C1 (amended): the remaining-diamond count reported by the scan is at
least the number of grid cells whose stationary-equivalent tag is diamond;
it equals that number except that a diamond rolled right within the pass is
tallied a second time at its new cell, so the count can strictly exceed it. -/
theorem diamonds_remaining_ge_count (s : MState)
    (h : s.grid.length = s.width * s.height) :
    count_diamond (automaton_tick s).grid ≤ (automaton_tick s).diamonds := by
  have inv := scanUpTo_diamond_inv { s with diamonds := 0 } (s.width * s.height)
  rw [count_from_zero] at inv
  have hlen : (scanUpTo { s with diamonds := 0 } (s.width * s.height)).grid.length =
      s.grid.length := scanUpTo_length _ _
  have hz : count_from diamondB
      (scanUpTo { s with diamonds := 0 } (s.width * s.height)).grid
      (s.width * s.height) = 0 :=
    count_from_ge _ _ _ (by rw [hlen, h])
  rw [hz] at inv
  have cons := scanUpTo_countP diamondB diamondB_space diamondB_of_moving diamondB_of_stat
    { s with diamonds := 0 } (s.width * s.height)
  unfold automaton_tick count_diamond
  rw [cons]
  simpa using inv

theorem diamonds_remaining_ge_count_witness :
    count_diamond (automaton_tick cexState).grid ≤ (automaton_tick cexState).diamonds :=
  diamonds_remaining_ge_count cexState (by decide)

/-- C3 counterexample: in the spec scenario (empty 3-by-3 grid, boulder at
(1,2), agent away from the column) the cell (1,0) after the second
automaton tick does not hold the stationary boulder tag: the down-move of
tick 2 writes the moving variant, and the cell is not revisited until the
next tick. -/
theorem boulder_two_tick_cex :
    ¬ getCell (automaton_tick (automaton_tick fallState)) 1 = BOULDER := by
  decide

/-- C3 (amended): the boulder occupies (1,1) with the moving tag after
tick 1, occupies (1,0) still with the moving tag after tick 2, and only
reverts to the stationary boulder tag at (1,0) on tick 3. -/
theorem boulder_fall_scenario :
    getCell (automaton_tick fallState) 4 = MOVING_BOULDER ∧
    getCell (automaton_tick fallState) 7 = SPACE ∧
    getCell (automaton_tick (automaton_tick fallState)) 1 = MOVING_BOULDER ∧
    getCell (automaton_tick (automaton_tick fallState)) 4 = SPACE ∧
    getCell (automaton_tick (automaton_tick (automaton_tick fallState))) 1 = BOULDER := by
  decide

theorem round_of_moving {t : Nat} (h : is_moving t = true) : is_round t = true := by
  simp only [is_moving, Bool.or_eq_true, decide_eq_true_eq] at h
  rcases h with h | h <;> subst h <;> decide

/-- C2: when the scan reaches a cell idx holding a round object whose
below-cell reads SPACE and is not the agent's cell, the scan clears idx
and writes the moving variant of the object's tag into the cell below;
that cell is already behind the scan front and keeps the object for the
rest of the pass, so the object moves down exactly one cell in the tick. -/
theorem round_object_falls_exactly_one (s0 : MState) (idx : Nat)
    (hidx : idx < s0.width * s0.height)
    (hround : is_round (getCell (scanUpTo s0 idx) idx) = true)
    (hbelow : get_obj (scanUpTo s0 idx) ((idx : Int) - (s0.width : Int)) = SPACE)
    (hagent : ((scanUpTo s0 idx).agent_idx : Int) ≠ (idx : Int) - (s0.width : Int)) :
    getCell (scanUpTo s0 (idx + 1)) idx = SPACE ∧
    get_obj (scanUpTo s0 (idx + 1)) ((idx : Int) - (s0.width : Int)) =
      get_moving_type (getCell (scanUpTo s0 idx) idx) ∧
    get_obj (scanUpTo s0 (s0.width * s0.height)) ((idx : Int) - (s0.width : Int)) =
      get_moving_type (getCell (scanUpTo s0 idx) idx) := by
  have hw : (scanUpTo s0 idx).width = s0.width := scanUpTo_width s0 idx
  rcases get_obj_space_bounds hbelow with ⟨hb0, hblen, hbspace⟩
  have hobj_ne : getCell (scanUpTo s0 idx) idx ≠ SPACE := round_ne_space hround
  have e1 : scanUpTo s0 (idx + 1) = scanCell (scanUpTo s0 idx) idx := rfl
  have estep : scanUpTo s0 (idx + 1) =
      set_obj (set_obj (tally (scanUpTo s0 idx) idx) (idx : Int) SPACE)
        ((idx : Int) - (s0.width : Int))
        (get_moving_type (getCell (scanUpTo s0 idx) idx)) := by
    rw [e1]
    unfold scanCell
    rw [if_pos hround]
    unfold moveResolve
    dsimp only
    simp only [tally_width, tally_agent, getCell_tally, get_obj_tally, is_free_tally]
    rw [hw]
    rw [if_pos ⟨hbelow, hagent⟩]
  have hbne : ((idx : Int) - (s0.width : Int)) ≠ (idx : Int) := by
    intro he
    apply hobj_ne
    have hte : ((idx : Int) - (s0.width : Int)).toNat = idx := by omega
    rw [hte] at hbspace
    exact hbspace
  have hlen_idx : idx < (tally (scanUpTo s0 idx) idx).grid.length := by
    rw [tally_grid]
    exact round_lt_length hround
  have c1 : getCell (scanUpTo s0 (idx + 1)) idx = SPACE := by
    rw [estep, getCell_set_obj_ne _ _ _ _ hbne]
    have hself := getCell_set_obj_self (tally (scanUpTo s0 idx) idx) (idx : Int) SPACE
      (by omega) (by rwa [show ((idx : Int)).toNat = idx by omega])
    rwa [show ((idx : Int)).toNat = idx by omega] at hself
  have c2 : get_obj (scanUpTo s0 (idx + 1)) ((idx : Int) - (s0.width : Int)) =
      get_moving_type (getCell (scanUpTo s0 idx) idx) := by
    rw [estep, get_obj_nonneg _ _ hb0]
    exact getCell_set_obj_self _ _ _ hb0 (by simpa [tally_grid] using hblen)
  refine ⟨c1, c2, ?_⟩
  have hmovne : get_moving_type (getCell (scanUpTo s0 idx) idx) ≠ SPACE :=
    moving_ne_space hround
  have hcb : ((idx : Int) - (s0.width : Int)).toNat < idx + 1 := by omega
  have hc2n : getCell (scanUpTo s0 (idx + 1)) ((idx : Int) - (s0.width : Int)).toNat =
      get_moving_type (getCell (scanUpTo s0 idx) idx) := by
    rw [← get_obj_nonneg _ _ hb0]
    exact c2
  have hpres := scanUpTo_preserve s0 (c := ((idx : Int) - (s0.width : Int)).toNat)
    (n := idx + 1) (m := s0.width * s0.height) (by omega) hcb (by rw [hc2n]; exact hmovne)
  rw [get_obj_nonneg _ _ hb0, hpres, hc2n]

theorem round_object_falls_exactly_one_witness :
    getCell (scanUpTo fallState (7 + 1)) 7 = SPACE ∧
    get_obj (scanUpTo fallState (7 + 1)) ((7 : Int) - (fallState.width : Int)) =
      get_moving_type (getCell (scanUpTo fallState 7) 7) ∧
    get_obj (scanUpTo fallState (fallState.width * fallState.height))
        ((7 : Int) - (fallState.width : Int)) =
      get_moving_type (getCell (scanUpTo fallState 7) 7) :=
  round_object_falls_exactly_one fallState 7 (by decide) (by decide) (by decide) (by decide)

/-- C4: when the scan reaches a cell idx holding a moving-variant round
object while the agent occupies the cell directly below, the pass sets the
terminal (crushed) flag, and the scan leaves the reward unchanged: no
completion bonus is added by the step. -/
theorem crush_sets_done_no_bonus (s0 : MState) (idx : Nat)
    (hidx : idx < s0.width * s0.height)
    (hmov : is_moving (getCell (scanUpTo s0 idx) idx) = true)
    (hagent : ((scanUpTo s0 idx).agent_idx : Int) = (idx : Int) - (s0.width : Int)) :
    (scanUpTo s0 (s0.width * s0.height)).done = true ∧
    (scanUpTo s0 (s0.width * s0.height)).reward = s0.reward := by
  refine ⟨?_, scanUpTo_reward s0 _⟩
  have hround : is_round (getCell (scanUpTo s0 idx) idx) = true := round_of_moving hmov
  have hw : (scanUpTo s0 idx).width = s0.width := scanUpTo_width s0 idx
  have hstep : (scanUpTo s0 (idx + 1)).done = true := by
    have e1 : scanUpTo s0 (idx + 1) = scanCell (scanUpTo s0 idx) idx := rfl
    rw [e1]
    unfold scanCell
    rw [if_pos hround]
    unfold moveResolve
    dsimp only
    simp only [tally_width, tally_agent, getCell_tally, get_obj_tally, is_free_tally,
      tally_done]
    rw [hw]
    rw [if_neg fun hc => hc.2 hagent, if_pos ⟨hagent, hmov⟩]
  exact scanUpTo_done_mono s0 (by omega) hstep

theorem crush_sets_done_no_bonus_witness :
    (scanUpTo crushState (crushState.width * crushState.height)).done = true ∧
    (scanUpTo crushState (crushState.width * crushState.height)).reward =
      crushState.reward :=
  crush_sets_done_no_bonus crushState 4 (by decide) (by decide) (by decide)

/-- C9: a right roll writes the object into cell idx+1, which the
ascending pass has not yet scanned, so the object is processed again in
the same tick: in the concrete state the diamond at cell 7 rolls right
and then falls, ending the single tick at cell 5 (one right, one down).
In contrast, every branch of the cell transition other than the right
roll writes only to cells with index at most idx, so down-moves and
left-rolls are never re-processed within the pass. -/
theorem right_roll_reprocessed :
    (getCell cexState 7 = DIAMOND ∧
      getCell (automaton_tick cexState) 5 = MOVING_DIAMOND ∧
      getCell (automaton_tick cexState) 7 = SPACE ∧
      getCell (automaton_tick cexState) 8 = SPACE) ∧
    (∀ (s : MState) (idx j : Nat), idx < j → j ≠ idx + 1 →
      getCell (scanCell s idx) j = getCell s j) := by
  refine ⟨by decide, ?_⟩
  intro s idx j hij hj1
  have hidxj : (idx : Int) ≠ (j : Int) := by omega
  unfold scanCell
  split
  next h0 =>
    unfold moveResolve
    dsimp only
    simp only [tally_width, tally_agent, tally_grid, getCell_tally, get_obj_tally,
      is_free_tally]
    split_ifs with h1 h2 h3 h4
    · rw [getCell_set_obj_ne _ _ _ _ (by omega), getCell_set_obj_ne _ _ _ _ hidxj,
        getCell_tally]
    · rfl
    · rw [getCell_set_obj_ne _ _ _ _ (by omega), getCell_set_obj_ne _ _ _ _ hidxj,
        getCell_tally]
    · rw [getCell_set_obj_ne _ _ _ _ (by omega), getCell_set_obj_ne _ _ _ _ hidxj,
        getCell_tally]
    · rw [getCell_set_obj_ne _ _ _ _ hidxj, getCell_tally]
  next => simp

theorem right_roll_reprocessed_witness :
    getCell (scanCell cexState 0) 2 = getCell cexState 2 :=
  right_roll_reprocessed.2 cexState 0 2 (by decide) (by decide)

/-- C6: colliding with the exit while the remaining-diamond count is zero
ends the episode with the terminal flag, the level-complete flag and the
completion bonus added to the reward exactly once; with a nonzero count
the exit collision changes nothing. -/
theorem exit_collision_rules (sd : StepData) (d : Nat) :
    ((handle_agent_collision 0 EXIT sd).done = true ∧
      (handle_agent_collision 0 EXIT sd).level_complete = true ∧
      (handle_agent_collision 0 EXIT sd).reward = sd.reward + COMPLETION_BONUS) ∧
    (d ≠ 0 → handle_agent_collision d EXIT sd = sd) := by
  constructor
  · unfold handle_agent_collision
    rw [if_neg (by decide), if_pos rfl, if_pos rfl]
    exact ⟨rfl, rfl, rfl⟩
  · intro hd
    unfold handle_agent_collision
    rw [if_neg (by decide), if_pos rfl, if_neg hd]

theorem exit_collision_rules_witness :
    ((handle_agent_collision 0 EXIT sd0).done = true ∧
      (handle_agent_collision 0 EXIT sd0).level_complete = true ∧
      (handle_agent_collision 0 EXIT sd0).reward = sd0.reward + COMPLETION_BONUS) ∧
    handle_agent_collision 3 EXIT sd0 = sd0 :=
  ⟨(exit_collision_rules sd0 3).1, (exit_collision_rules sd0 3).2 (by decide)⟩

/-- C7: the exit-selection step of game_reset fails (the fassert) exactly
when the candidate list is empty; any selected cell is a candidate: it
comes from the dirt-cell listing and its directly-above cell reads DIRT
or the out-of-bounds tag, never any other tag; and every candidate is
selected by some value of the uniform draw. -/
theorem exit_selection_rules (g : List Nat) (w : Nat) (dirt_cells : List Nat) (r : Nat) :
    (choose_exit g w dirt_cells r = none ↔ exit_candidates g w dirt_cells = []) ∧
    (∀ c, choose_exit g w dirt_cells r = some c →
      c ∈ exit_candidates g w dirt_cells ∧ c ∈ dirt_cells ∧
      (g.getD (c + w) OOB_WALL = DIRT ∨ g.getD (c + w) OOB_WALL = OOB_WALL)) ∧
    (∀ c, c ∈ exit_candidates g w dirt_cells →
      ∃ r2, choose_exit g w dirt_cells r2 = some c) := by
  have hmem : ∀ c, c ∈ exit_candidates g w dirt_cells →
      c ∈ dirt_cells ∧
        (g.getD (c + w) OOB_WALL = DIRT ∨ g.getD (c + w) OOB_WALL = OOB_WALL) := by
    intro c hc
    rw [exit_candidates, List.mem_filter] at hc
    rcases hc with ⟨h1, h2⟩
    refine ⟨h1, ?_⟩
    simpa using h2
  refine ⟨?_, ?_, ?_⟩
  · unfold choose_exit
    dsimp only
    by_cases hz : (exit_candidates g w dirt_cells).length = 0
    · rw [if_pos hz]
      simp [List.length_eq_zero.mp hz]
    · rw [if_neg hz]
      constructor
      · intro h
        exact absurd h (by simp)
      · intro h
        rw [h] at hz
        exact absurd rfl hz
  · intro c hc
    unfold choose_exit at hc
    dsimp only at hc
    by_cases hz : (exit_candidates g w dirt_cells).length = 0
    · rw [if_pos hz] at hc
      exact absurd hc (by simp)
    · rw [if_neg hz] at hc
      have hlt : r % (exit_candidates g w dirt_cells).length <
          (exit_candidates g w dirt_cells).length :=
        Nat.mod_lt _ (Nat.pos_of_ne_zero hz)
      have hval := Option.some.inj hc
      rw [List.getD_eq_getElem _ _ hlt] at hval
      have hcm : c ∈ exit_candidates g w dirt_cells := by
        rw [← hval]
        exact List.getElem_mem hlt
      exact ⟨hcm, hmem c hcm⟩
  · intro c hc
    obtain ⟨⟨i, hi⟩, hget⟩ := List.mem_iff_get.mp hc
    refine ⟨i, ?_⟩
    unfold choose_exit
    dsimp only
    have hz : (exit_candidates g w dirt_cells).length ≠ 0 := by
      intro h0
      rw [List.length_eq_zero.mp h0] at hc
      exact absurd hc (by simp)
    rw [if_neg hz, Nat.mod_eq_of_lt hi, List.getD_eq_getElem _ _ hi, ← hget]
    rfl

theorem exit_selection_rules_witness :
    (1 : Nat) ∈ exit_candidates [DIRT, DIRT, DIRT, DIRT] 2 [0, 1, 2, 3] ∧
    (1 : Nat) ∈ [0, 1, 2, 3] ∧
    (([DIRT, DIRT, DIRT, DIRT] : List Nat).getD (1 + 2) OOB_WALL = DIRT ∨
      ([DIRT, DIRT, DIRT, DIRT] : List Nat).getD (1 + 2) OOB_WALL = OOB_WALL) :=
  (exit_selection_rules [DIRT, DIRT, DIRT, DIRT] 2 [0, 1, 2, 3] 5).2.1 1 (by decide)

@[simp]
theorem getCell_set_agent (s : MState) (v c : Nat) :
    getCell { s with agent_idx := v } c = getCell s c := rfl

/-- C8: the push pre-step moves exactly one stationary boulder by one cell
into the free cell beyond it and moves the agent one cell the same way,
precisely when the agent has no residual horizontal velocity, the intended
horizontal action points at the boulder, the adjacent cell holds the
stationary boulder tag, the cell beyond it is SPACE, and both cells lie
within the column bounds; in every other case the grid and the agent
position are unchanged. -/
theorem handle_push_rules (s : MState) :
    (s.action_vx = 1 → s.agent_vx = 0 → s.agent_idx % s.width + 2 < s.width →
      getCell s (s.agent_idx + 1) = BOULDER → getCell s (s.agent_idx + 2) = SPACE →
      (getCell (handle_push s) (s.agent_idx + 1) = SPACE ∧
        getCell (handle_push s) (s.agent_idx + 2) = BOULDER ∧
        (handle_push s).agent_idx = s.agent_idx + 1) ∧
      (∀ c : Nat, c ≠ s.agent_idx + 1 → c ≠ s.agent_idx + 2 →
        getCell (handle_push s) c = getCell s c)) ∧
    (s.action_vx = -1 → s.agent_vx = 0 → 1 < s.agent_idx % s.width →
      getCell s (s.agent_idx - 1) = BOULDER → getCell s (s.agent_idx - 2) = SPACE →
      (getCell (handle_push s) (s.agent_idx - 1) = SPACE ∧
        getCell (handle_push s) (s.agent_idx - 2) = BOULDER ∧
        (handle_push s).agent_idx = s.agent_idx - 1) ∧
      (∀ c : Nat, c ≠ s.agent_idx - 1 → c ≠ s.agent_idx - 2 →
        getCell (handle_push s) c = getCell s c)) ∧
    (¬(s.action_vx = 1 ∧ s.agent_vx = 0 ∧ s.agent_idx % s.width + 2 < s.width ∧
        getCell s (s.agent_idx + 1) = BOULDER ∧ getCell s (s.agent_idx + 2) = SPACE) →
      ¬(s.action_vx = -1 ∧ s.agent_vx = 0 ∧ 1 < s.agent_idx % s.width ∧
        getCell s (s.agent_idx - 1) = BOULDER ∧ getCell s (s.agent_idx - 2) = SPACE) →
      handle_push s = s) := by
  have hmod : s.agent_idx % s.width ≤ s.agent_idx := Nat.mod_le _ _
  have hg1p : get_obj s ((s.agent_idx : Int) + 1) = getCell s (s.agent_idx + 1) := by
    rw [show ((s.agent_idx : Int) + 1) = ((s.agent_idx + 1 : Nat) : Int) by omega,
      get_obj_natCast]
  have hg2p : get_obj s ((s.agent_idx : Int) + 2) = getCell s (s.agent_idx + 2) := by
    rw [show ((s.agent_idx : Int) + 2) = ((s.agent_idx + 2 : Nat) : Int) by omega,
      get_obj_natCast]
  refine ⟨?_, ?_, ?_⟩
  · intro h1 h2 h3 h4 h5
    have hcond : s.action_vx = 1 ∧ s.agent_vx = 0 ∧
        ((s.agent_idx % s.width : Nat) : Int) < (s.width : Int) - 2 ∧
        get_obj s ((s.agent_idx : Int) + 1) = BOULDER ∧
        get_obj s ((s.agent_idx : Int) + 2) = SPACE :=
      ⟨h1, h2, by omega, by rw [hg1p]; exact h4, by rw [hg2p]; exact h5⟩
    have hres : handle_push s =
        { set_obj (set_obj s ((s.agent_idx : Int) + 1) SPACE) ((s.agent_idx : Int) + 2)
            BOULDER with agent_idx := s.agent_idx + 1 } := by
      unfold handle_push
      dsimp only
      rw [if_pos hcond]
    have hlen2 : s.agent_idx + 2 < s.grid.length := space_lt_length h5
    have hlen1 : s.agent_idx + 1 < s.grid.length :=
      getCell_lt_length (by rw [h4]; decide)
    refine ⟨⟨?_, ?_, ?_⟩, ?_⟩
    · rw [hres, getCell_set_agent, getCell_set_obj_ne _ _ _ _ (by omega)]
      have hself := getCell_set_obj_self s ((s.agent_idx : Int) + 1) SPACE (by omega)
        (by rw [show ((s.agent_idx : Int) + 1).toNat = s.agent_idx + 1 by omega]
            exact hlen1)
      rwa [show ((s.agent_idx : Int) + 1).toNat = s.agent_idx + 1 by omega] at hself
    · rw [hres, getCell_set_agent]
      have hself := getCell_set_obj_self (set_obj s ((s.agent_idx : Int) + 1) SPACE)
        ((s.agent_idx : Int) + 2) BOULDER (by omega)
        (by rw [show ((s.agent_idx : Int) + 2).toNat = s.agent_idx + 2 by omega,
              set_obj_length]
            exact hlen2)
      rwa [show ((s.agent_idx : Int) + 2).toNat = s.agent_idx + 2 by omega] at hself
    · rw [hres]
    · intro c hc1 hc2
      rw [hres, getCell_set_agent, getCell_set_obj_ne _ _ _ _ (by omega),
        getCell_set_obj_ne _ _ _ _ (by omega)]
  · intro h1 h2 h3 h4 h5
    have ha2 : 2 ≤ s.agent_idx := by omega
    have hg1m : get_obj s ((s.agent_idx : Int) - 1) = getCell s (s.agent_idx - 1) := by
      rw [show ((s.agent_idx : Int) - 1) = ((s.agent_idx - 1 : Nat) : Int) by omega,
        get_obj_natCast]
    have hg2m : get_obj s ((s.agent_idx : Int) - 2) = getCell s (s.agent_idx - 2) := by
      rw [show ((s.agent_idx : Int) - 2) = ((s.agent_idx - 2 : Nat) : Int) by omega,
        get_obj_natCast]
    have hcond : s.action_vx = -1 ∧ s.agent_vx = 0 ∧ 1 < s.agent_idx % s.width ∧
        get_obj s ((s.agent_idx : Int) - 1) = BOULDER ∧
        get_obj s ((s.agent_idx : Int) - 2) = SPACE :=
      ⟨h1, h2, h3, by rw [hg1m]; exact h4, by rw [hg2m]; exact h5⟩
    have hres : handle_push s =
        { set_obj (set_obj s ((s.agent_idx : Int) - 1) SPACE) ((s.agent_idx : Int) - 2)
            BOULDER with agent_idx := s.agent_idx - 1 } := by
      unfold handle_push
      dsimp only
      rw [if_neg fun hc => absurd (hc.1.symm.trans h1) (by decide), if_pos hcond]
    have hlen2 : s.agent_idx - 2 < s.grid.length := space_lt_length h5
    have hlen1 : s.agent_idx - 1 < s.grid.length :=
      getCell_lt_length (by rw [h4]; decide)
    refine ⟨⟨?_, ?_, ?_⟩, ?_⟩
    · rw [hres, getCell_set_agent, getCell_set_obj_ne _ _ _ _ (by omega)]
      have hself := getCell_set_obj_self s ((s.agent_idx : Int) - 1) SPACE (by omega)
        (by rw [show ((s.agent_idx : Int) - 1).toNat = s.agent_idx - 1 by omega]
            exact hlen1)
      rwa [show ((s.agent_idx : Int) - 1).toNat = s.agent_idx - 1 by omega] at hself
    · rw [hres, getCell_set_agent]
      have hself := getCell_set_obj_self (set_obj s ((s.agent_idx : Int) - 1) SPACE)
        ((s.agent_idx : Int) - 2) BOULDER (by omega)
        (by rw [show ((s.agent_idx : Int) - 2).toNat = s.agent_idx - 2 by omega,
              set_obj_length]
            exact hlen2)
      rwa [show ((s.agent_idx : Int) - 2).toNat = s.agent_idx - 2 by omega] at hself
    · rw [hres]
    · intro c hc1 hc2
      rw [hres, getCell_set_agent, getCell_set_obj_ne _ _ _ _ (by omega),
        getCell_set_obj_ne _ _ _ _ (by omega)]
  · intro hnr hnl
    unfold handle_push
    dsimp only
    have hnr2 : ¬(s.action_vx = 1 ∧ s.agent_vx = 0 ∧
        ((s.agent_idx % s.width : Nat) : Int) < (s.width : Int) - 2 ∧
        get_obj s ((s.agent_idx : Int) + 1) = BOULDER ∧
        get_obj s ((s.agent_idx : Int) + 2) = SPACE) := by
      intro hc
      exact hnr ⟨hc.1, hc.2.1, by omega, by rw [← hg1p]; exact hc.2.2.2.1,
        by rw [← hg2p]; exact hc.2.2.2.2⟩
    have hnl2 : ¬(s.action_vx = -1 ∧ s.agent_vx = 0 ∧ 1 < s.agent_idx % s.width ∧
        get_obj s ((s.agent_idx : Int) - 1) = BOULDER ∧
        get_obj s ((s.agent_idx : Int) - 2) = SPACE) := by
      intro hc
      have ha2 : 2 ≤ s.agent_idx := by
        have := hc.2.2.1
        omega
      have hg1m : get_obj s ((s.agent_idx : Int) - 1) = getCell s (s.agent_idx - 1) := by
        rw [show ((s.agent_idx : Int) - 1) = ((s.agent_idx - 1 : Nat) : Int) by omega,
          get_obj_natCast]
      have hg2m : get_obj s ((s.agent_idx : Int) - 2) = getCell s (s.agent_idx - 2) := by
        rw [show ((s.agent_idx : Int) - 2) = ((s.agent_idx - 2 : Nat) : Int) by omega,
          get_obj_natCast]
      exact hnl ⟨hc.1, hc.2.1, hc.2.2.1, by rw [← hg1m]; exact hc.2.2.2.1,
        by rw [← hg2m]; exact hc.2.2.2.2⟩
    rw [if_neg hnr2, if_neg hnl2]

theorem handle_push_rules_witness :
    getCell (handle_push pushState) (pushState.agent_idx + 1) = SPACE ∧
    getCell (handle_push pushState) (pushState.agent_idx + 2) = BOULDER ∧
    (handle_push pushState).agent_idx = pushState.agent_idx + 1 :=
  ((handle_push_rules pushState).1 (by decide) (by decide) (by decide) (by decide)
    (by decide)).1

end Miner

namespace BigFish

/-- C10: a collision with a FISH entity ends the episode exactly when the
fish is strictly larger and strictly to the right of the player; a
strictly larger fish at or left of the player is instead eaten, granting
the reward, erasing the fish, growing both radii by r_inc and bumping the
fish-eaten counter. -/
theorem bigfish_collision_rules (s : FishState) (rx x : ℚ) :
    (rx > s.agent_rx → x > s.agent_x →
      bf_handle_agent_collision s FISH rx x = ({ s with done := true }, false)) ∧
    (rx > s.agent_rx → x ≤ s.agent_x →
      bf_handle_agent_collision s FISH rx x =
        ({ s with reward := s.reward + POSITIVE_REWARD,
                  agent_rx := s.agent_rx + s.r_inc,
                  agent_ry := s.agent_ry + s.r_inc,
                  fish_eaten := s.fish_eaten + 1 }, true)) ∧
    (s.done = false → (bf_handle_agent_collision s FISH rx x).1.done = true →
      rx > s.agent_rx ∧ x > s.agent_x) := by
  refine ⟨?_, ?_, ?_⟩
  · intro h1 h2
    unfold bf_handle_agent_collision
    rw [if_pos rfl, if_pos ⟨h1, h2⟩]
  · intro h1 h2
    unfold bf_handle_agent_collision
    rw [if_pos rfl, if_neg fun hc => absurd hc.2 (not_lt.mpr h2)]
  · intro hdone hres
    unfold bf_handle_agent_collision at hres
    rw [if_pos rfl] at hres
    by_cases hc : rx > s.agent_rx ∧ x > s.agent_x
    · exact hc
    · rw [if_neg hc] at hres
      simp [hdone] at hres

theorem bigfish_collision_rules_witness :
    bf_handle_agent_collision bfState FISH 2 (-1) =
      ({ bfState with reward := bfState.reward + POSITIVE_REWARD,
                      agent_rx := bfState.agent_rx + bfState.r_inc,
                      agent_ry := bfState.agent_ry + bfState.r_inc,
                      fish_eaten := bfState.fish_eaten + 1 }, true) :=
  (bigfish_collision_rules bfState 2 (-1)).2.1 (by decide) (by decide)

end BigFish

end Procgen
